import Mathlib

/-!
Verification of the lambda-spotprices concurrent price-ingestion pipeline.

Shallow embedding of `Code/cli.py`, `Code/dynamodb.py` and
`Code/core/ec2prices.py`: pure functions become Lean functions, the
worker thread's loop becomes explicit recursion over its record segment
with the mutable `running` flag read through an oracle, and Python
exceptions become explicit error values (`PyErr`), distinguishing the
exception classes the source catches (`ClientError`, `KeyError`) from
those it does not (`IndexError`, `TypeError`, `NameError`,
`ZeroDivisionError`).
-/

/-- Python exception classes relevant to the embedded code. -/
inductive PyErr where
  | typeError
  | zeroDivisionError
  | nameError
  | indexError
  | clientError
deriving DecidableEq, Repr

namespace Cli

/-- Python slice `l[a:b]` for `0 ≤ a`, `0 ≤ b` (out-of-range indices clamp,
`b < a` yields `[]`). -/
def pySlice (l : List α) (a b : Nat) : List α :=
  (l.drop a).take (b - a)

/-- `Code/cli.py::split_list`.  Source:
`k, m = divmod(len(mlist), n)` followed by
`(mlist[i * k + min(i, m):(i + 1) * k + min(i + 1, m)] for i in range(n))`.
The generator is materialised as a list of the `n` slices. -/
def split_list (mlist : List α) (n : Nat) : List (List α) :=
  let k := mlist.length / n
  let m := mlist.length % n
  (List.range n).map (fun i => pySlice mlist (i * k + min i m) ((i + 1) * k + min (i + 1) m))

/-- The left slice bound of segment `i`: `i * k + min i m`. -/
def segStart (len n i : Nat) : Nat :=
  i * (len / n) + min i (len % n)

/-- One spot-price record as retrieved from the Price Source API
(an element of `prices['SpotPriceHistory']`): the five fields this code
reads. -/
structure SpotRecord where
  AvailabilityZone : String
  InstanceType : String
  ProductDescription : String
  SpotPrice : String
  Timestamp : String
deriving DecidableEq, Repr

/-- The literal `{"USD": "0.0000000000", 'unit': 'Hrs'}` dict shape. -/
structure OnDemand where
  USD : String
  unit : String
deriving DecidableEq, Repr

/-- The constant `OnDemandPrice` value of `Code/cli.py` line 271. -/
def onDemandConst : OnDemand := ⟨"0.0000000000", "Hrs"⟩

/-- The item written by `Code/cli.py::DynamoDBPrices.run` (`put_item` dict):
exactly these seven fields. -/
structure DBItem where
  RegionName : String
  AvailabilityZone : String
  InstanceType : String
  ProductDescription : String
  SpotPrice : String
  Timestamp : String
  OnDemandPrice : OnDemand
deriving DecidableEq, Repr

/-- The item written by `Code/dynamodb.py::DynamoDBPrices.insert_dynamodb_record`:
the same fields minus `OnDemandPrice`. -/
structure DynItem where
  RegionName : String
  AvailabilityZone : String
  InstanceType : String
  ProductDescription : String
  SpotPrice : String
  Timestamp : String
deriving DecidableEq, Repr

/-- Forgetting the `OnDemandPrice` field of a `DBItem`. -/
def eraseOD (x : DBItem) : DynItem :=
  ⟨x.RegionName, x.AvailabilityZone, x.InstanceType, x.ProductDescription,
   x.SpotPrice, x.Timestamp⟩

/-- Python's substring test `needle in hay`, on character lists. -/
def listContainsSub [BEq α] : List α → List α → Bool
  | needle, [] => needle.isEmpty
  | needle, c :: rest => needle.isPrefixOf (c :: rest) || listContainsSub needle rest

/-- `Code/cli.py::AssignRegion.assign_region` (identical in
`Code/dynamodb.py`): `[x for x in self.regions if x in az][0]`.
`none` models the `IndexError` raised when no configured region is a
substring of the availability zone (the filtered list is empty). -/
def assign_region (regions : List String) (az : String) : Option String :=
  (regions.filter (fun x => listContainsSub x.data az.data)).head?

/-- The item dict built for `put_item` in `Code/cli.py` lines 264-272. -/
def mkItem (rg : String) (r : SpotRecord) : DBItem :=
  { RegionName := rg
    AvailabilityZone := r.AvailabilityZone
    InstanceType := r.InstanceType
    ProductDescription := r.ProductDescription
    SpotPrice := r.SpotPrice
    Timestamp := r.Timestamp
    OnDemandPrice := onDemandConst }

/-- The item dict built for `put_item` in `Code/dynamodb.py` lines 105-112. -/
def mkDynItem (rg : String) (r : SpotRecord) : DynItem :=
  { RegionName := rg
    AvailabilityZone := r.AvailabilityZone
    InstanceType := r.InstanceType
    ProductDescription := r.ProductDescription
    SpotPrice := r.SpotPrice
    Timestamp := r.Timestamp }

/-- How a worker's `run` terminates: falling off the loop (`completed`),
leaving via `break` after a stop request (`stoppedEarly`), or dying on an
exception no `except` clause catches (`crashed`). -/
inductive Outcome where
  | completed
  | stoppedEarly
  | crashed (e : PyErr)
deriving DecidableEq, Repr

/-- `Code/cli.py::DynamoDBPrices.run`, lines 261-281.  Arguments:
`clientErr r` tells whether `put_item` for record `r` raises
`botocore.ClientError` (the only exception the `except` clause catches);
`runningAt t` is the value of the mutable `self.running` flag at its
`t`-th read (the flag is read once per *successful* `put_item`, at
`if not self.running: break`; the `except ClientError: continue` path
skips that read).  `self.ar.assign_region(item['AvailabilityZone'])` is
evaluated while building the `Item` dict; when it raises `IndexError`
the exception is not a `ClientError`, so it propagates and the loop
(and the thread's `run`) terminates at once.  Returns the list of items
written to the DynamoDB table, in order, and how the loop ended. -/
def DynamoDBPrices_run (regions : List String) (clientErr : SpotRecord → Bool)
    (runningAt : Nat → Bool) : List SpotRecord → Nat → List DBItem × Outcome
  | [], _ => ([], Outcome.completed)
  | item :: rest, t =>
      match assign_region regions item.AvailabilityZone with
      | none => ([], Outcome.crashed PyErr.indexError)
      | some rg =>
          if clientErr item then
            DynamoDBPrices_run regions clientErr runningAt rest t
          else
            if runningAt t then
              let p := DynamoDBPrices_run regions clientErr runningAt rest (t + 1)
              (mkItem rg item :: p.1, p.2)
            else
              ([mkItem rg item], Outcome.stoppedEarly)

/-- The dict argument of `summary_statistics` (`data['SpotPriceHistory']`). -/
structure PriceData where
  SpotPriceHistory : List SpotRecord
deriving DecidableEq, Repr

/-- The expression `float(x['SpotPrice'])` of `Code/cli.py` line 129,
where `x` ranges over `cur_type` and is therefore a `str` (an element of
the list built on lines 121-123, which already extracted the
`'SpotPrice'` values).  Subscripting a `str` with a `str` key raises
`TypeError: string indices must be integers` in Python, so this always
fails. -/
def float_of_str_subscript (_x : String) : Except PyErr Rat :=
  Except.error PyErr.typeError

/-- The `AvgPrice` computation of `Code/cli.py` line 129:
`sum([float(x['SpotPrice']) for x in cur_type]) / len(cur_type)`.
Python evaluates the list comprehension first; if `cur_type` is empty the
comprehension succeeds with `[]` and the division by `len(cur_type) = 0`
raises `ZeroDivisionError`. -/
def avgPriceExpr (cur_type : List String) : Except PyErr Rat := do
  let vals ← cur_type.mapM float_of_str_subscript
  if cur_type.length = 0 then Except.error PyErr.zeroDivisionError
  else Except.ok (vals.sum / (cur_type.length : Rat))

/-- `Code/cli.py::summary_statistics`, lines 105-133.  For each `itype`,
`cur_type = [x['SpotPrice'] for x in data['SpotPriceHistory'] if
x['InstanceType'] == itype]` (the record fields always exist in this
model, so the `except KeyError` clause never fires), then the `AvgPrice`
expression runs.  If every iteration survived, `print_ending_summary`
executes; its inner loop `for instance in container` reads the global
name `container`, which is not defined at module level, raising
`NameError` as soon as `itypes_list` is non-empty (with an empty
`instances` list the loop body is never entered and the function
returns `True`). -/
def summary_statistics (data : PriceData) (instances : List String) :
    Except PyErr Bool := do
  let _ ← instances.mapM (fun itype =>
    avgPriceExpr
      ((data.SpotPriceHistory.filter (fun x => x.InstanceType == itype)).map
        (fun x => x.SpotPrice)))
  if instances.isEmpty then Except.ok true
  else Except.error PyErr.nameError

/-- The arithmetic mean the specification prescribes for `avg_price`
(stated from the spec's words, for comparison with what the code does). -/
def specAvgPrice (prices : List Rat) : Rat :=
  prices.sum / (prices.length : Rat)

/-- `Code/cli.py::default_endpoints`.  `now` is the value of
`datetime.datetime.today()` expressed in seconds since an epoch aligned
to UTC midnight (the Lambda environment sets `TZ` to UTC, so `today()`
coincides with current UTC time).  `end =
datetime.combine(today().date(), datetime.min.time())` truncates `now`
to midnight; `start = end - timedelta(days=duration_days)`. -/
def default_endpoints (now : Nat) (duration_days : Nat) : Int × Int :=
  let endT : Int := ((now / 86400 : Nat) : Int) * 86400
  (endT - 86400 * (duration_days : Int), endT)

/-- Externally visible effects of `Code/cli.py::lambda_handler`. -/
inductive LambdaEv where
  | startWorker (i : Nat)
  | joinWorker (i : Nat)
  | s3write (region : String)
deriving DecidableEq, Repr

/-- The order of effects in `Code/cli.py::lambda_handler`, lines 347-383:
`db1.start()` … `db4.start()`, then `db1.join()` … `db4.join()` (each
`join` returns only once that thread's `run` has reached a terminal
state), then the `for region in TARGET_REGIONS` loop performing one
`s3upload` per region. -/
def lambda_handler_events (target_regions : List String) : List LambdaEv :=
  [LambdaEv.startWorker 1, LambdaEv.startWorker 2, LambdaEv.startWorker 3,
   LambdaEv.startWorker 4, LambdaEv.joinWorker 1, LambdaEv.joinWorker 2,
   LambdaEv.joinWorker 3, LambdaEv.joinWorker 4]
  ++ target_regions.map LambdaEv.s3write

def isStart : LambdaEv → Bool
  | LambdaEv.startWorker _ => true
  | _ => false

def isJoin : LambdaEv → Bool
  | LambdaEv.joinWorker _ => true
  | _ => false

def isWrite : LambdaEv → Bool
  | LambdaEv.s3write _ => true
  | _ => false

/-- Outcome of the `put_object` call inside `s3upload`: either a response
whose `['ResponseMetadata']['HTTPStatusCode']` is `statuscode`, or a
raised `botocore.ClientError` (the error channel of the Blob Store
interface). -/
inductive S3Response where
  | ok (statuscode : Nat)
  | clientError
deriving DecidableEq, Repr

/-- Python `s.startswith(p)`. -/
def strStartsWith (s p : String) : Bool :=
  p.data.isPrefixOf s.data

/-- `Code/cli.py::s3upload`, lines 163-183.  The body serialises the
object and calls `put_object`; `except ClientError` returns `False`;
otherwise the result is `True if str(statuscode).startswith('20') else
False`.  Total: every outcome of the modelled Blob Store call maps to a
boolean. -/
def s3upload (_bucket _s3object _key : String) (resp : S3Response) : Bool :=
  match resp with
  | S3Response.clientError => false
  | S3Response.ok statuscode => strStartsWith (Nat.repr statuscode) "20"

/-- `Code/cli.py::writeout_data`, lines 204-221: returns `True` when
`export_iterobject` (the local filesystem writer collaborator) reports
success and `False` otherwise, logging either way.  Total. -/
def writeout_data (_key _jsonobject _filename : String) (exportResult : Bool) : Bool :=
  if exportResult then true else false

/-- The `datetime` fields `strftime` reads. -/
structure PyDatetime where
  year : Nat
  month : Nat
  day : Nat
  hour : Nat
  minute : Nat
  second : Nat
deriving DecidableEq, Repr

/-- Zero-padded two-digit field (`%m`, `%d`, `%H`, `%M`, `%S`). -/
def pad2 (n : Nat) : String :=
  if n < 10 then "0" ++ Nat.repr n else Nat.repr n

/-- Zero-padded four-digit field (`%Y`). -/
def pad4 (n : Nat) : String :=
  if n < 10 then "000" ++ Nat.repr n
  else if n < 100 then "00" ++ Nat.repr n
  else if n < 1000 then "0" ++ Nat.repr n
  else Nat.repr n

/-- `dt.strftime('%Y-%m-%dT%H:%M:%SZ')` (`Code/cli.py::utc_datetime` and
the two `strftime` calls on lines 365-366). -/
def strftime_iso (dt : PyDatetime) : String :=
  pad4 dt.year ++ "-" ++ pad2 dt.month ++ "-" ++ pad2 dt.day ++ "T" ++
    pad2 dt.hour ++ ":" ++ pad2 dt.minute ++ ":" ++ pad2 dt.second ++ "Z"

/-- `dt.strftime('%Y-%m-%d')` (date-only rendering). -/
def strftime_date (dt : PyDatetime) : String :=
  pad4 dt.year ++ "-" ++ pad2 dt.month ++ "-" ++ pad2 dt.day

/-- Python `'_'.join(parts)`. -/
def strJoinUnderscore : List String → String
  | [] => ""
  | [x] => x
  | x :: y :: rest => x ++ "_" ++ strJoinUnderscore (y :: rest)

/-- `os.path.join(a, b)` for the arguments this code passes (the second
component, a file name produced by `strftime`, never begins with the
separator, so the absolute-path branch of `os.path.join` is not
reachable here). -/
def ospath_join (a b : String) : String :=
  if a = "" then b
  else if a.data.getLast? = some '/' then a ++ b
  else a ++ "/" ++ b

/-- The `fname` of `Code/cli.py` lines 363-369:
`'_'.join([start.strftime('%Y-%m-%dT%H:%M:%SZ'),
end.strftime('%Y-%m-%dT%H:%M:%SZ'), 'all-instance-spot-prices.json'])`. -/
def artifact_fname (startDt endDt : PyDatetime) : String :=
  strJoinUnderscore
    [strftime_iso startDt, strftime_iso endDt, "all-instance-spot-prices.json"]

/-- `key = os.path.join(region, fname)` of `Code/cli.py` line 372, the
Blob Store key passed to `s3upload`. -/
def artifact_key (region : String) (startDt endDt : PyDatetime) : String :=
  ospath_join region (artifact_fname startDt endDt)

/-- Modelled from the spec: the code that persists the unique
instance-type list (spec §6, `<window-end-date>_spot-instanceTypes.json`)
is an entry-point variant of this repository that is not present under
`src/`; only the writers it would call (`s3upload`, `writeout_data`) are.
Following the spec's words, the artifact name is the window end date
followed by `_spot-instanceTypes.json`. -/
def instance_types_fname (endDt : PyDatetime) : String :=
  strftime_date endDt ++ "_spot-instanceTypes.json"

end Cli

namespace Dynamodb

/-- `Code/dynamodb.py::DynamoDBPrices.insert_dynamodb_record`, lines
87-121, applied to the `price_dicts` list the method fetches.  The loop
body is the `cli.py` worker's, but with no `running` flag, no
`OnDemandPrice` field, and `except ClientError` sleeping 10s before
`continue`; an `IndexError` from `assign_region` again propagates
uncaught.  After the loop the method executes `return table`, and the
bare name `table` is unbound (the attribute is `self.table`), raising
`NameError`. -/
def insert_dynamodb_record (regions : List String) (clientErr : Cli.SpotRecord → Bool) :
    List Cli.SpotRecord → List Cli.DynItem × Cli.Outcome
  | [] => ([], Cli.Outcome.crashed PyErr.nameError)
  | item :: rest =>
      match Cli.assign_region regions item.AvailabilityZone with
      | none => ([], Cli.Outcome.crashed PyErr.indexError)
      | some rg =>
          if clientErr item then
            insert_dynamodb_record regions clientErr rest
          else
            let p := insert_dynamodb_record regions clientErr rest
            (Cli.mkDynItem rg item :: p.1, p.2)

end Dynamodb

namespace Ec2Prices

/-- The names bound to a list value when
`Code/core/ec2prices.py::split_list(monolith, n)` executes: only the
parameter `monolith`.  The module's globals are `INDEXURL`, `ACCENT`,
`RESET`, `TMPDIR`, `DBUGMODE`, `_today` and the module's functions —
none of them is named `a`. -/
def localListEnv (monolith : List α) : List (String × List α) :=
  [("monolith", monolith)]

/-- `Code/core/ec2prices.py::split_list`, lines 293-308: the body's first
statement is `k, m = divmod(len(a), n)` and the generator slices `a`,
but no name `a` is in scope, so the lookup fails and the call raises
`NameError` before any segment is produced.  Were `a` bound, the result
would be the `cli.py` splitter applied to it. -/
def split_list (monolith : List α) (n : Nat) : Except PyErr (List (List α)) :=
  match (localListEnv monolith).lookup "a" with
  | none => Except.error PyErr.nameError
  | some a => Except.ok (Cli.split_list a n)

end Ec2Prices

namespace Cli

/-- Fixture record whose availability zone is matched by the configured
region list `["us-east-1"]`. -/
def rGood : SpotRecord :=
  ⟨"us-east-1a", "t2.micro", "Linux/UNIX", "0.0035", "2019-01-01T00:00:00.000Z"⟩

/-- Fixture record whose availability zone is matched by no configured
region. -/
def rBad : SpotRecord :=
  ⟨"ap-south-1a", "t2.micro", "Linux/UNIX", "0.0041", "2019-01-01T00:00:00.000Z"⟩

/-- The C4 fixture: `t2.micro` appearing three times at prices
`0.01`, `0.02`, `0.03`. -/
def fixtureData : PriceData :=
  ⟨[⟨"us-east-1a", "t2.micro", "Linux/UNIX", "0.01", "2024-01-01T01:00:00.000Z"⟩,
    ⟨"us-east-1b", "t2.micro", "Linux/UNIX", "0.02", "2024-01-01T02:00:00.000Z"⟩,
    ⟨"us-east-1c", "t2.micro", "Linux/UNIX", "0.03", "2024-01-01T03:00:00.000Z"⟩]⟩

end Cli

namespace Cli

theorem segStart_zero (len n : Nat) : segStart len n 0 = 0 := by
  simp [segStart]

theorem segStart_last (len n : Nat) (hn : 0 < n) : segStart len n n = len := by
  have hm : len % n < n := Nat.mod_lt _ hn
  have := Nat.div_add_mod len n
  simp only [segStart, Nat.min_eq_right (Nat.le_of_lt hm)]
  omega

theorem segStart_succ (len n i : Nat) :
    segStart len n (i + 1) =
      segStart len n i + (len / n + if i < len % n then 1 else 0) := by
  unfold segStart
  rcases Nat.lt_or_ge i (len % n) with h | h
  · have h1 : min i (len % n) = i := Nat.min_eq_left (Nat.le_of_lt h)
    have h2 : min (i + 1) (len % n) = i + 1 := Nat.min_eq_left h
    simp only [h1, h2, if_pos h]
    ring
  · have h1 : min i (len % n) = len % n := Nat.min_eq_right h
    have h2 : min (i + 1) (len % n) = len % n :=
      Nat.min_eq_right (Nat.le_trans h (Nat.le_succ i))
    simp only [h1, h2, if_neg (Nat.not_lt.mpr h)]
    ring

theorem segStart_mono_succ (len n i : Nat) :
    segStart len n i ≤ segStart len n (i + 1) := by
  unfold segStart
  have h1 : i * (len / n) ≤ (i + 1) * (len / n) := Nat.mul_le_mul_right _ (Nat.le_succ i)
  have h2 : min i (len % n) ≤ min (i + 1) (len % n) :=
    min_le_min (Nat.le_succ i) (Nat.le_refl _)
  exact Nat.add_le_add h1 h2

theorem segStart_le_len (len n i : Nat) (hn : 0 < n) (hi : i ≤ n) :
    segStart len n i ≤ len := by
  have hm : len % n < n := Nat.mod_lt _ hn
  have := Nat.div_add_mod len n
  have h1 : i * (len / n) ≤ n * (len / n) := Nat.mul_le_mul_right _ hi
  have h2 : min i (len % n) ≤ len % n := Nat.min_le_right _ _
  unfold segStart
  omega

theorem pySlice_length (l : List α) (a b : Nat) (hab : a ≤ b) (hb : b ≤ l.length) :
    (pySlice l a b).length = b - a := by
  simp only [pySlice, List.length_take, List.length_drop]
  omega

/-- Concatenating the first `j` slices of any monotone bound schedule `F`
with `F 0 = 0` yields the prefix of length `F j`. -/
theorem join_slices (l : List α) (F : Nat → Nat) (h0 : F 0 = 0)
    (hmono : ∀ i, F i ≤ F (i + 1)) (j : Nat) :
    ((List.range j).map (fun i => pySlice l (F i) (F (i + 1)))).flatten = l.take (F j) := by
  induction j with
  | zero => simp [h0]
  | succ j ih =>
      rw [List.range_succ, List.map_append, List.flatten_append, ih]
      simp only [List.map_cons, List.map_nil, List.flatten_cons, List.flatten_nil,
        List.append_nil, pySlice]
      rw [← List.take_add]
      congr 1
      have := hmono j
      omega

theorem split_list_eq (l : List α) (n : Nat) :
    split_list l n =
      (List.range n).map
        (fun i => pySlice l (segStart l.length n i) (segStart l.length n (i + 1))) := rfl

theorem split_list_getD (l : List α) (n i : Nat) (hi : i < n) :
    (split_list l n).getD i [] =
      pySlice l (segStart l.length n i) (segStart l.length n (i + 1)) := by
  rw [split_list_eq, List.getD_eq_getElem _ _ (by simpa using hi)]
  simp

theorem split_list_getD_length (l : List α) (n i : Nat) (hn : 0 < n) (hi : i < n) :
    ((split_list l n).getD i []).length =
      (if i < l.length % n then l.length / n + 1 else l.length / n) := by
  rw [split_list_getD l n i hi]
  have hsucc := segStart_succ l.length n i
  rw [pySlice_length _ _ _ (segStart_mono_succ l.length n i)
    (segStart_le_len l.length n (i + 1) hn hi)]
  rcases Nat.lt_or_ge i (l.length % n) with h | h
  · rw [if_pos h] at hsucc
    rw [if_pos h, hsucc, Nat.add_sub_cancel_left]
  · rw [if_neg (Nat.not_lt.mpr h)] at hsucc
    rw [if_neg (Nat.not_lt.mpr h), hsucc]
    simp

theorem split_list_mem_length (l : List α) (n : Nat) (hn : 0 < n) (s : List α)
    (hs : s ∈ split_list l n) :
    s.length = l.length / n ∨ s.length = l.length / n + 1 := by
  rw [split_list_eq] at hs
  obtain ⟨i, hi, rfl⟩ := List.mem_map.mp hs
  rw [List.mem_range] at hi
  have h := split_list_getD_length l n i hn hi
  rw [split_list_getD l n i hi] at h
  rw [h]
  split <;> simp

/-- C1: for positive `n`, `split_list` yields exactly `n` segments whose
index-ordered concatenation is the original list; with `k = len / n` and
`m = len % n`, segment `i` has length `k + 1` for `i < m` and `k`
otherwise; any two segment lengths differ by at most 1; and when
`n > len` the segments with index at or beyond `len` are empty
(the function is total for `n > 0`, so no error is raised). -/
theorem c1_split_list_correct (records : List α) (n : Nat) (hn : 0 < n) :
    (split_list records n).length = n ∧
    (split_list records n).flatten = records ∧
    (∀ i, i < n →
      ((split_list records n).getD i []).length =
        (if i < records.length % n then records.length / n + 1
         else records.length / n)) ∧
    (∀ s ∈ split_list records n, ∀ t ∈ split_list records n,
      s.length ≤ t.length + 1) ∧
    (∀ i, records.length ≤ i → i < n → (split_list records n).getD i [] = []) := by
  refine ⟨?_, ?_, ?_, ?_, ?_⟩
  · simp [split_list_eq]
  · rw [split_list_eq,
      join_slices records (segStart records.length n) (segStart_zero _ _)
        (segStart_mono_succ records.length n) n,
      segStart_last _ _ hn]
    simp
  · exact fun i hi => split_list_getD_length records n i hn hi
  · intro s hs t ht
    rcases split_list_mem_length records n hn s hs with h | h <;>
      rcases split_list_mem_length records n hn t ht with h' | h' <;> omega
  · intro i hlen hi
    have hln : records.length < n := Nat.lt_of_le_of_lt hlen hi
    have h := split_list_getD_length records n i hn hi
    have hmod : records.length % n = records.length := Nat.mod_eq_of_lt hln
    have hdiv : records.length / n = 0 := Nat.div_eq_of_lt hln
    rw [hmod, hdiv, if_neg (by omega)] at h
    exact List.length_eq_zero.mp h

/-- Witness for C1 at `records = [10, 20, 30, 40, 50]`, `n = 3`. -/
theorem c1_split_list_correct_witness :
    (0 < 3) ∧
    ((split_list [10, 20, 30, 40, 50] 3).length = 3 ∧
     (split_list [10, 20, 30, 40, 50] 3).flatten = [10, 20, 30, 40, 50] ∧
     (∀ i, i < 3 →
       ((split_list [10, 20, 30, 40, 50] 3).getD i []).length =
         (if i < [10, 20, 30, 40, 50].length % 3 then [10, 20, 30, 40, 50].length / 3 + 1
          else [10, 20, 30, 40, 50].length / 3)) ∧
     (∀ s ∈ split_list [10, 20, 30, 40, 50] 3, ∀ t ∈ split_list [10, 20, 30, 40, 50] 3,
       s.length ≤ t.length + 1) ∧
     (∀ i, [10, 20, 30, 40, 50].length ≤ i → i < 3 →
       (split_list [10, 20, 30, 40, 50] 3).getD i [] = [])) :=
  ⟨by decide, c1_split_list_correct [10, 20, 30, 40, 50] 3 (by decide)⟩

/-- C2 counterexample: with configured regions `["us-east-1"]` and the
segment `[rBad, rGood]` (where `rBad`'s availability zone matches no
region), the claim's behaviour — the worker keeps running past the
unmatched record and still writes the matched one — is false: the
`IndexError` from `assign_region` is not caught by `except ClientError`,
so the run crashes with nothing written. -/
theorem c2_counterexample :
    ¬ ((DynamoDBPrices_run ["us-east-1"] (fun _ => false) (fun _ => true)
          [rBad, rGood] 0).2 ≠ Outcome.crashed PyErr.indexError ∧
       mkItem "us-east-1" rGood ∈
         (DynamoDBPrices_run ["us-east-1"] (fun _ => false) (fun _ => true)
           [rBad, rGood] 0).1) := by
  decide

/-- C2 (amended): a record whose availability zone matches no configured
region raises an uncaught `IndexError` that terminates the worker's run:
the record is not written, no record after it in the segment is
processed, and only records preceding it can have been written. -/
theorem c2_unmatched_region_crashes_worker (regions : List String)
    (clientErr : SpotRecord → Bool) (pre : List SpotRecord) (r : SpotRecord)
    (rest : List SpotRecord) (t : Nat)
    (hpre : ∀ p ∈ pre, (assign_region regions p.AvailabilityZone).isSome)
    (hr : assign_region regions r.AvailabilityZone = none) :
    (DynamoDBPrices_run regions clientErr (fun _ => true) (pre ++ r :: rest) t).2 =
      Outcome.crashed PyErr.indexError ∧
    (DynamoDBPrices_run regions clientErr (fun _ => true) (pre ++ r :: rest) t).1.length ≤
      pre.length := by
  revert hpre
  induction pre generalizing t with
  | nil =>
      intro _
      simp [DynamoDBPrices_run, hr]
  | cons p pre ih =>
      intro hpre
      obtain ⟨rg, hrg⟩ := Option.isSome_iff_exists.mp (hpre p (List.mem_cons_self p pre))
      have hpre' : ∀ q ∈ pre, (assign_region regions q.AvailabilityZone).isSome :=
        fun q hq => hpre q (List.mem_cons_of_mem p hq)
      cases hce : clientErr p with
      | true =>
          have h := ih t hpre'
          simp only [List.cons_append, DynamoDBPrices_run, hrg, hce, if_true]
          exact ⟨h.1, Nat.le_trans h.2 (Nat.le_succ _)⟩
      | false =>
          have h := ih (t + 1) hpre'
          simp only [List.cons_append, DynamoDBPrices_run, hrg, hce, if_false,
            Bool.false_eq_true, if_true, List.length_cons]
          exact ⟨h.1, Nat.succ_le_succ h.2⟩

/-- Witness for the amended C2 theorem at `pre = [rGood]`, `r = rBad`. -/
theorem c2_unmatched_region_crashes_worker_witness :
    (DynamoDBPrices_run ["us-east-1"] (fun _ => false) (fun _ => true)
        ([rGood] ++ rBad :: []) 0).2 = Outcome.crashed PyErr.indexError ∧
    (DynamoDBPrices_run ["us-east-1"] (fun _ => false) (fun _ => true)
        ([rGood] ++ rBad :: []) 0).1.length ≤ [rGood].length :=
  c2_unmatched_region_crashes_worker ["us-east-1"] (fun _ => false) [rGood] rBad [] 0
    (by decide) (by decide)

/-- C3 counterexample: a `stop()` issued before any record is processed
(`self.running` reads `false` from the start) does not yield a run of
zero records: with segment `[rGood]` the worker still writes the first
record, because the flag is only checked after a successful `put_item`. -/
theorem c3_counterexample :
    (DynamoDBPrices_run ["us-east-1"] (fun _ => false) (fun _ => false) [rGood] 0).1 =
      [mkItem "us-east-1" rGood] ∧
    (DynamoDBPrices_run ["us-east-1"] (fun _ => false) (fun _ => false) [rGood] 0).1 ≠
      [] := by
  decide

/-- C3 (amended): the worker reads the stop flag only after a successful
`put_item` (the `except ClientError: continue` path skips the check), so
once `stop()` has been requested the worker exits right after its first
subsequent successful write: with the flag down from the start, at most
one item is written; exactly one as soon as some record's write succeeds;
and zero (with the loop running to completion over the whole segment)
only when every write raises `ClientError`. -/
theorem c3_stop_checked_after_successful_put (regions : List String)
    (clientErr : SpotRecord → Bool) (records : List SpotRecord) (t : Nat)
    (hmatch : ∀ r ∈ records, (assign_region regions r.AvailabilityZone).isSome) :
    (DynamoDBPrices_run regions clientErr (fun _ => false) records t).1.length ≤ 1 ∧
    ((∃ r ∈ records, clientErr r = false) →
      (DynamoDBPrices_run regions clientErr (fun _ => false) records t).1.length = 1) ∧
    ((∀ r ∈ records, clientErr r = true) →
      DynamoDBPrices_run regions clientErr (fun _ => false) records t =
        ([], Outcome.completed)) := by
  revert hmatch
  induction records generalizing t with
  | nil =>
      intro _
      refine ⟨by simp [DynamoDBPrices_run], ?_, fun _ => rfl⟩
      rintro ⟨r, hr, -⟩
      exact absurd hr (List.not_mem_nil r)
  | cons r rest ih =>
      intro hmatch
      obtain ⟨rg, hrg⟩ := Option.isSome_iff_exists.mp (hmatch r (List.mem_cons_self r rest))
      have hmatch' : ∀ q ∈ rest, (assign_region regions q.AvailabilityZone).isSome :=
        fun q hq => hmatch q (List.mem_cons_of_mem r hq)
      cases hce : clientErr r with
      | true =>
          have h := ih t hmatch'
          simp only [DynamoDBPrices_run, hrg, hce, if_true]
          refine ⟨h.1, ?_, ?_⟩
          · rintro ⟨r', hr', hce'⟩
            rcases List.mem_cons.mp hr' with rfl | hr'
            · exact absurd hce (by simp [hce'])
            · exact h.2.1 ⟨r', hr', hce'⟩
          · intro hall
            exact h.2.2 (fun q hq => hall q (List.mem_cons_of_mem r hq))
      | false =>
          simp only [DynamoDBPrices_run, hrg, hce, if_false, Bool.false_eq_true]
          refine ⟨by simp, fun _ => by simp, ?_⟩
          intro hall
          exact absurd (hall r (List.mem_cons_self r rest)) (by simp [hce])

/-- Witness for the amended C3 theorem at segment `[rGood]`, stop flag
down from the start, no `ClientError`. -/
theorem c3_stop_checked_after_successful_put_witness :
    (DynamoDBPrices_run ["us-east-1"] (fun _ => false) (fun _ => false) [rGood] 0).1.length ≤ 1 ∧
    ((∃ r ∈ [rGood], (fun (_ : SpotRecord) => false) r = false) →
      (DynamoDBPrices_run ["us-east-1"] (fun _ => false) (fun _ => false) [rGood] 0).1.length = 1) ∧
    ((∀ r ∈ [rGood], (fun (_ : SpotRecord) => false) r = true) →
      DynamoDBPrices_run ["us-east-1"] (fun _ => false) (fun _ => false) [rGood] 0 =
        ([], Outcome.completed)) :=
  c3_stop_checked_after_successful_put ["us-east-1"] (fun _ => false) [rGood] 0 (by decide)

theorem run_items_shape (regions : List String) (clientErr : SpotRecord → Bool)
    (runningAt : Nat → Bool) (records : List SpotRecord) (t : Nat) :
    ∀ it ∈ (DynamoDBPrices_run regions clientErr runningAt records t).1,
      it.OnDemandPrice = onDemandConst ∧
      ∃ r rg, r ∈ records ∧ assign_region regions r.AvailabilityZone = some rg ∧
        it = mkItem rg r := by
  induction records generalizing t with
  | nil => simp [DynamoDBPrices_run]
  | cons r rest ih =>
      intro it hit
      cases hrg : assign_region regions r.AvailabilityZone with
      | none => simp [DynamoDBPrices_run, hrg] at hit
      | some rg =>
          cases hce : clientErr r with
          | true =>
              simp only [DynamoDBPrices_run, hrg, hce, if_true] at hit
              obtain ⟨h1, r', rg', hr', hrg', h2⟩ := ih t it hit
              exact ⟨h1, r', rg', List.mem_cons_of_mem r hr', hrg', h2⟩
          | false =>
              cases hra : runningAt t with
              | true =>
                  simp only [DynamoDBPrices_run, hrg, hce, hra, if_true, if_false,
                    Bool.false_eq_true, List.mem_cons] at hit
                  rcases hit with rfl | hit
                  · exact ⟨rfl, r, rg, List.mem_cons_self r rest, hrg, rfl⟩
                  · obtain ⟨h1, r', rg', hr', hrg', h2⟩ := ih (t + 1) it hit
                    exact ⟨h1, r', rg', List.mem_cons_of_mem r hr', hrg', h2⟩
              | false =>
                  simp only [DynamoDBPrices_run, hrg, hce, hra, if_false,
                    Bool.false_eq_true, List.mem_cons, List.mem_singleton] at hit
                  rcases hit with rfl | hit
                  · exact ⟨rfl, r, rg, List.mem_cons_self r rest, hrg, rfl⟩
                  · exact absurd hit (List.not_mem_nil it)

theorem insert_eq_run_erase (regions : List String) (clientErr : SpotRecord → Bool)
    (records : List SpotRecord) (t : Nat) :
    (Dynamodb.insert_dynamodb_record regions clientErr records).1 =
      (DynamoDBPrices_run regions clientErr (fun _ => true) records t).1.map eraseOD := by
  induction records generalizing t with
  | nil => simp [Dynamodb.insert_dynamodb_record, DynamoDBPrices_run]
  | cons r rest ih =>
      cases hrg : assign_region regions r.AvailabilityZone with
      | none => simp [Dynamodb.insert_dynamodb_record, DynamoDBPrices_run, hrg]
      | some rg =>
          cases hce : clientErr r with
          | true =>
              simp only [Dynamodb.insert_dynamodb_record, DynamoDBPrices_run, hrg, hce,
                if_true]
              exact ih t
          | false =>
              simp only [Dynamodb.insert_dynamodb_record, DynamoDBPrices_run, hrg, hce,
                if_false, Bool.false_eq_true, if_true, List.map_cons]
              exact congrArg _ (ih (t + 1))

/-- C10: every item the `cli.py` worker writes carries
`OnDemandPrice = {"USD": "0.0000000000", "unit": "Hrs"}` independent of
the input record, its remaining fields being the record's fields plus the
looked-up `RegionName`; and the `dynamodb.py` variant writes, record for
record, exactly the same item with the `OnDemandPrice` field removed. -/
theorem c10_written_item_fields (regions : List String) (clientErr : SpotRecord → Bool)
    (runningAt : Nat → Bool) (records : List SpotRecord) (t : Nat) :
    (∀ it ∈ (DynamoDBPrices_run regions clientErr runningAt records t).1,
       it.OnDemandPrice = onDemandConst ∧
       ∃ r rg, r ∈ records ∧ assign_region regions r.AvailabilityZone = some rg ∧
         it = mkItem rg r) ∧
    (Dynamodb.insert_dynamodb_record regions clientErr records).1 =
      (DynamoDBPrices_run regions clientErr (fun _ => true) records t).1.map eraseOD :=
  ⟨run_items_shape regions clientErr runningAt records t,
   insert_eq_run_erase regions clientErr records t⟩

/-- Witness for C10 at the single-record segment `[rGood]`. -/
theorem c10_written_item_fields_witness :
    (mkItem "us-east-1" rGood).OnDemandPrice = onDemandConst ∧
    ∃ r rg, r ∈ [rGood] ∧ assign_region ["us-east-1"] r.AvailabilityZone = some rg ∧
      mkItem "us-east-1" rGood = mkItem rg r :=
  (c10_written_item_fields ["us-east-1"] (fun _ => false) (fun _ => true) [rGood] 0).1
    (mkItem "us-east-1" rGood) (by decide)

/-- C4 (code bug): on the fixture where `t2.micro` appears three times at
prices 0.01, 0.02, 0.03, `summary_statistics` does not report the
arithmetic mean — it dies with `TypeError`, because line 129 subscripts
the already-extracted `SpotPrice` strings (`float(x['SpotPrice'])` with
`x` a `str`).  The mean the claim prescribes for the fixture is
`1/50 = 0.02`. -/
theorem c4_summary_statistics_crashes :
    summary_statistics fixtureData ["t2.micro"] = Except.error PyErr.typeError ∧
    specAvgPrice [1/100, 2/100, 3/100] = 2/100 := by
  constructor
  · rfl
  · simp only [specAvgPrice, List.sum_cons, List.sum_nil, List.length_cons,
      List.length_nil]
    norm_num

/-- C5: with no explicit endpoints and `duration_days = 1`,
`default_endpoints` returns a window exactly 24 hours (86400 s) wide
whose end is the most recent midnight not after `now` (the current UTC
time, the epoch being aligned to UTC midnight) and whose start is the
midnight of the previous day. -/
theorem c5_default_endpoints_window (now : Nat) :
    (default_endpoints now 1).2 % 86400 = 0 ∧
    (default_endpoints now 1).2 ≤ (now : Int) ∧
    (now : Int) < (default_endpoints now 1).2 + 86400 ∧
    (default_endpoints now 1).2 - (default_endpoints now 1).1 = 86400 ∧
    (default_endpoints now 1).1 = (default_endpoints now 1).2 - 86400 ∧
    (default_endpoints now 1).1 % 86400 = 0 := by
  have h1 := Nat.div_add_mod now 86400
  have h2 : now % 86400 < 86400 := Nat.mod_lt _ (by norm_num)
  simp only [default_endpoints]
  omega

theorem lambda_events_getD_lt8 (R : List String) (i : Nat) (h : i < 8) :
    (lambda_handler_events R).getD i (LambdaEv.s3write "") =
      [LambdaEv.startWorker 1, LambdaEv.startWorker 2, LambdaEv.startWorker 3,
       LambdaEv.startWorker 4, LambdaEv.joinWorker 1, LambdaEv.joinWorker 2,
       LambdaEv.joinWorker 3, LambdaEv.joinWorker 4].getD i (LambdaEv.s3write "") := by
  unfold lambda_handler_events
  exact List.getD_append _ _ _ _ (by simpa using h)

theorem lambda_events_getD_ge8 (R : List String) (i : Nat) (h8 : 8 ≤ i)
    (hlen : i < (lambda_handler_events R).length) :
    ∃ rg, (lambda_handler_events R).getD i (LambdaEv.s3write "") =
      LambdaEv.s3write rg := by
  have hR : i - 8 < R.length := by
    simp only [lambda_handler_events, List.length_append, List.length_map] at hlen
    simp only [List.length_cons, List.length_nil] at hlen
    omega
  unfold lambda_handler_events
  rw [List.getD_append_right _ _ _ _ (by simpa using h8)]
  simp only [List.length_cons, List.length_nil]
  rw [List.getD_eq_getElem _ _ (by simpa using hR)]
  rw [List.getElem_map]
  exact ⟨_, rfl⟩

theorem lambda_events_isStart_pos (R : List String) (i : Nat)
    (hlen : i < (lambda_handler_events R).length)
    (h : isStart ((lambda_handler_events R).getD i (LambdaEv.s3write "")) = true) :
    i < 4 := by
  rcases Nat.lt_or_ge i 8 with h8 | h8
  · rw [lambda_events_getD_lt8 R i h8] at h
    interval_cases i <;> first | decide | exact absurd h (by decide)
  · obtain ⟨rg, hrg⟩ := lambda_events_getD_ge8 R i h8 hlen
    rw [hrg] at h
    simp [isStart] at h

theorem lambda_events_isJoin_pos (R : List String) (i : Nat)
    (hlen : i < (lambda_handler_events R).length)
    (h : isJoin ((lambda_handler_events R).getD i (LambdaEv.s3write "")) = true) :
    4 ≤ i ∧ i < 8 := by
  rcases Nat.lt_or_ge i 8 with h8 | h8
  · rw [lambda_events_getD_lt8 R i h8] at h
    interval_cases i <;> first | decide | exact absurd h (by decide)
  · obtain ⟨rg, hrg⟩ := lambda_events_getD_ge8 R i h8 hlen
    rw [hrg] at h
    simp [isJoin] at h

theorem lambda_events_isWrite_pos (R : List String) (i : Nat)
    (h : isWrite ((lambda_handler_events R).getD i (LambdaEv.s3write "")) = true) :
    8 ≤ i := by
  rcases Nat.lt_or_ge i 8 with h8 | h8
  · rw [lambda_events_getD_lt8 R i h8] at h
    interval_cases i <;> exact absurd h (by decide)
  · exact h8

/-- C6: `lambda_handler` starts all four pool workers, then joins each of
them — a worker's `join` returns only once it has reached a terminal
state — and only after all joins does any Artifact Writer action (S3
upload) occur: in the effect order, every start precedes every join and
every join precedes every write.  A join-all barrier, not a race. -/
theorem c6_join_all_before_writes (R : List String) :
    (∀ w, 1 ≤ w → w ≤ 4 → LambdaEv.joinWorker w ∈ lambda_handler_events R) ∧
    (∀ i j, i < (lambda_handler_events R).length →
       j < (lambda_handler_events R).length →
       isStart ((lambda_handler_events R).getD i (LambdaEv.s3write "")) = true →
       isJoin ((lambda_handler_events R).getD j (LambdaEv.s3write "")) = true →
       i < j) ∧
    (∀ i j, i < (lambda_handler_events R).length →
       j < (lambda_handler_events R).length →
       isJoin ((lambda_handler_events R).getD i (LambdaEv.s3write "")) = true →
       isWrite ((lambda_handler_events R).getD j (LambdaEv.s3write "")) = true →
       i < j) := by
  refine ⟨?_, ?_, ?_⟩
  · intro w h1 h4
    interval_cases w <;> simp [lambda_handler_events]
  · intro i j hi hj hsi hsj
    have h1 := lambda_events_isStart_pos R i hi hsi
    have h2 := lambda_events_isJoin_pos R j hj hsj
    omega
  · intro i j hi hj hsi hsj
    have h1 := lambda_events_isJoin_pos R i hi hsi
    have h2 := lambda_events_isWrite_pos R j hsj
    omega

/-- Witness for C6 at `TARGET_REGIONS = ["us-east-1"]`: worker 4 is
joined, and the join at position 4 precedes the write at position 8. -/
theorem c6_join_all_before_writes_witness :
    LambdaEv.joinWorker 4 ∈ lambda_handler_events ["us-east-1"] ∧ (4 : Nat) < 8 :=
  ⟨(c6_join_all_before_writes ["us-east-1"]).1 4 (by decide) (by decide),
   (c6_join_all_before_writes ["us-east-1"]).2.2 4 8 (by decide) (by decide)
     (by decide) (by decide)⟩

/-- C7: the Artifact Writer operations are total boolean functions of
their store call's outcome — no exception escapes them.  `s3upload`
returns `true` exactly when the put returned a response whose HTTP
status code's decimal rendering begins with `"20"` (and `false` on
`ClientError`); `writeout_data` returns exactly the local writer's
success boolean. -/
theorem c7_artifact_writer_total_boolean (bucket s3object key : String)
    (resp : S3Response) (k j f : String) (exportResult : Bool) :
    (s3upload bucket s3object key resp = true ↔
      ∃ sc, resp = S3Response.ok sc ∧ strStartsWith (Nat.repr sc) "20" = true) ∧
    (writeout_data k j f exportResult = true ↔ exportResult = true) := by
  constructor
  · cases resp with
    | clientError => simp [s3upload]
    | ok sc =>
        simp only [s3upload]
        constructor
        · intro h
          exact ⟨sc, rfl, h⟩
        · rintro ⟨sc', heq, h⟩
          cases heq
          exact h
  · cases exportResult <;> simp [writeout_data]

/-- C8: for any run over a region whose code is non-empty and does not
end in the path separator, the raw-price artifact key is
`<region>/<start-iso>_<end-iso>_all-instance-spot-prices.json` with both
window endpoints rendered by `%Y-%m-%dT%H:%M:%SZ`; and (modelled from
the spec, the persisting entry point being outside `src/`) the unique
instance-type list is persisted as
`<window-end-date>_spot-instanceTypes.json`. -/
theorem c8_artifact_naming (region : String) (s e : PyDatetime)
    (h1 : region ≠ "") (h2 : region.data.getLast? ≠ some '/') :
    artifact_key region s e =
      region ++ "/" ++ strftime_iso s ++ "_" ++ strftime_iso e ++ "_" ++
        "all-instance-spot-prices.json" ∧
    instance_types_fname e = strftime_date e ++ "_spot-instanceTypes.json" := by
  refine ⟨?_, rfl⟩
  simp only [artifact_key, ospath_join, artifact_fname, strJoinUnderscore,
    if_neg h1, if_neg h2]
  simp [String.append_assoc]

/-- Witness for C8 at `region = "us-east-1"` and the window
2024-01-01T00:00:00Z – 2024-01-02T00:00:00Z. -/
theorem c8_artifact_naming_witness :
    artifact_key "us-east-1" ⟨2024, 1, 1, 0, 0, 0⟩ ⟨2024, 1, 2, 0, 0, 0⟩ =
      "us-east-1" ++ "/" ++ strftime_iso ⟨2024, 1, 1, 0, 0, 0⟩ ++ "_" ++
        strftime_iso ⟨2024, 1, 2, 0, 0, 0⟩ ++ "_" ++
        "all-instance-spot-prices.json" ∧
    instance_types_fname ⟨2024, 1, 2, 0, 0, 0⟩ =
      strftime_date ⟨2024, 1, 2, 0, 0, 0⟩ ++ "_spot-instanceTypes.json" :=
  c8_artifact_naming "us-east-1" ⟨2024, 1, 1, 0, 0, 0⟩ ⟨2024, 1, 2, 0, 0, 0⟩
    (by decide) (by decide)

end Cli

/-- C9: the `core/ec2prices.py` splitter's body refers to the unbound
name `a` (its parameter is `monolith`), so every call raises `NameError`
before any segment is produced: for every input list and every `n` it
never successfully yields a segment, and it is not equivalent to the
working `cli.py` splitter. -/
theorem c9_ec2_split_list_nameError (monolith : List α) (n : Nat) :
    Ec2Prices.split_list monolith n = Except.error PyErr.nameError ∧
    Ec2Prices.split_list monolith n ≠ Except.ok (Cli.split_list monolith n) := by
  have h : Ec2Prices.split_list monolith n = Except.error PyErr.nameError := rfl
  refine ⟨h, ?_⟩
  rw [h]
  exact fun hc => Except.noConfusion hc
